import Mathlib

/-!
Verification development for the complex-number calculator
(`src/calculator.py`).

The core of the program is embedded at two levels, matching the two kinds
of claims made by the specification:

* a **text level** (`PyFloat`, `ComplexNumber`, `ComplexNumber.from_string`,
  `ComplexNumber.to_string`): Python floats obtained from literals are
  modelled exactly, as a rational value or one of the non-finite values
  `inf`/`-inf`/`nan`.  Strings are modelled as lists of characters.
  Python's signed zero `-0.0` collapses to the rational `0`; this is
  faithful for every property stated here because `to_string` only uses
  `abs` and the comparison `>= 0`, and in Python `-0.0 >= 0` is `True` and
  `abs(-0.0) == 0.0`.

* an **arithmetic level** (`ComplexR` and the four operation classes):
  the four operations are embedded over ideal real numbers (IEEE-754
  rounding is not modelled), which is the algebraic reading the
  specification itself uses for the operation tables.
-/

/-- The distinguishable values of a Python float as far as this program
observes them: an exact finite value, a signed infinity, or NaN.
(Signed zero collapses to `finite 0`, see the module comment.) -/
inductive PyFloat where
  | finite (q : ℚ)
  | inf (neg : Bool)
  | nan
deriving DecidableEq, Repr

/-- The error kinds of the core, as the specification names them:
`FormatError` from parsing, `UnknownOperationError` (carrying the
offending token) from the operation factory, `DivisionByZeroError` from
division.  In the source these are the `ValueError` raised by
`float`/tuple unpacking, the `ValueError` raised by
`BaseOperationFactory.create`, and the `ZeroDivisionError` raised by
`ComplexDivision.apply`. -/
inductive CalcError where
  | formatError
  | unknownOperationError (token : List Char)
  | divisionByZeroError
deriving DecidableEq, Repr

deriving instance DecidableEq for Except

/-- The whitespace characters stripped by Python's `str.strip()` (and by
`float()` itself), restricted to the ASCII ones. -/
def isPySpace (c : Char) : Bool :=
  c == ' ' || c == '\t' || c == '\n' || c == '\r' || c == '\x0b' || c == '\x0c'

/-- Model of Python's `str.strip()`: remove whitespace from both ends. -/
def stripChars (s : List Char) : List Char :=
  ((s.dropWhile isPySpace).reverse.dropWhile isPySpace).reverse

/-- Model of Python's `str.split(",")`: split at every comma. -/
def splitOnComma : List Char → List (List Char)
  | [] => [[]]
  | c :: rest =>
    if c = ',' then [] :: splitOnComma rest
    else
      match splitOnComma rest with
      | [] => [[c]]
      | f :: r => (c :: f) :: r

/-- Consume an optional leading sign; returns whether the sign was `-`
and the remaining characters. -/
def parseSign : List Char → Bool × List Char
  | '+' :: rest => (false, rest)
  | '-' :: rest => (true, rest)
  | s => (false, s)

/-- Case-insensitive comparison of `s` against a lowercase word `t`. -/
def lowerEq (s t : List Char) : Bool :=
  s.map Char.toLower == t

/-- Numeric value of a run of decimal digits. -/
def digitsVal (ds : List Char) : ℕ :=
  ds.foldl (fun a c => 10 * a + (c.toNat - 48)) 0

/-- Split off the leading run of decimal digits. -/
def takeDigits (s : List Char) : List Char × List Char :=
  (s.takeWhile Char.isDigit, s.dropWhile Char.isDigit)

/-- Parse the optional exponent suffix `e[sign]digits` (or end of input,
meaning exponent `0`); `none` when the remaining characters are not a
well-formed exponent. -/
def parseExp : List Char → Option ℤ
  | [] => some 0
  | c :: rest =>
    if c = 'e' ∨ c = 'E' then
      let (neg, r2) := parseSign rest
      let (ds, r3) := takeDigits r2
      if ds = [] ∨ r3 ≠ [] then none
      else some (if neg then -(digitsVal ds : ℤ) else (digitsVal ds : ℤ))
    else none

/-- The exact value `m * 10 ^ (e - k)` of a decimal literal whose digits
(integer and fractional parts concatenated) have value `m`, whose
fractional part has `k` digits and whose exponent is `e`; expressed with
integer arithmetic and `mkRat` so that it evaluates by kernel
reduction. -/
def decValue (m : ℕ) (k : ℕ) (e : ℤ) : ℚ :=
  if 0 ≤ e - (k : ℤ) then mkRat ((m : ℤ) * 10 ^ (e - (k : ℤ)).toNat) 1
  else mkRat (m : ℤ) (10 ^ ((k : ℤ) - e).toNat)

/-- Parse an unsigned decimal literal `digits[.digits][exp]` with at
least one mantissa digit, exactly (no rounding), as a rational. -/
def parseDecimal (s : List Char) : Option ℚ :=
  let (ip, r1) := takeDigits s
  match r1 with
  | '.' :: r2 =>
    let (fp, r3) := takeDigits r2
    if ip = [] ∧ fp = [] then none
    else
      match parseExp r3 with
      | some e => some (decValue (digitsVal (ip ++ fp)) fp.length e)
      | none => none
  | _ =>
    if ip = [] then none
    else
      match parseExp r1 with
      | some e => some (decValue (digitsVal ip) 0 e)
      | none => none

/-- Model of Python's `float(s)` constructor on already-stripped input
(`ComplexNumber.from_string` strips its fields before calling it): an
optional sign followed by `nan`, `inf`/`infinity` (case-insensitive) or a
decimal literal with optional fractional part and exponent.  The value is
kept exact as a rational (binary64 rounding is not modelled; digit-group
underscores are not modelled). -/
def pyFloat? (s : List Char) : Option PyFloat :=
  let (neg, r) := parseSign s
  if lowerEq r "nan".toList then some .nan
  else if lowerEq r "inf".toList || lowerEq r "infinity".toList then some (.inf neg)
  else
    match parseDecimal r with
    | some q => some (.finite (if neg then -q else q))
    | none => none

/-- The `ComplexNumber` class of the source at the text level: a pair of
Python floats. -/
structure ComplexNumber where
  real : PyFloat
  img : PyFloat
deriving DecidableEq, Repr

/-- `ComplexNumber.from_string` from the source:
`real, img = value.split(",")` (failure of the two-element unpacking and
failure of `float` both surface as the spec's `FormatError`), then
`float(real.strip())` and `float(img.strip())`. -/
def ComplexNumber.from_string (value : List Char) : Except CalcError ComplexNumber :=
  match splitOnComma value with
  | [r, i] =>
    match pyFloat? (stripChars r), pyFloat? (stripChars i) with
    | some re, some im => .ok { real := re, img := im }
    | _, _ => .error .formatError
  | _ => .error .formatError

/-- Character for the decimal digit `d % 10`. -/
def digChar (d : ℕ) : Char := Char.ofNat (48 + d % 10)

/-- Decimal digits of a natural number, most significant first
(`fuel`-structured so that it evaluates by kernel reduction). -/
def natCharsAux : ℕ → ℕ → List Char
  | 0, _ => []
  | fuel + 1, n =>
    if n < 10 then [digChar n]
    else natCharsAux fuel (n / 10) ++ [digChar n]

/-- Decimal digits of a natural number. -/
def natChars (n : ℕ) : List Char := natCharsAux (n + 1) n

/-- Decimal digits of the fraction `r / d` (with `0 ≤ r < d`): long
division, emitting at most `fuel` digits and stopping when the remainder
is `0`. -/
def fracDigitChars : ℕ → ℕ → ℕ → List Char
  | 0, _, _ => []
  | fuel + 1, r, d =>
    if r = 0 then []
    else digChar (10 * r / d) :: fracDigitChars fuel (10 * r % d) d

/-- Model of Python's default float-to-string conversion for a finite
value: optional `-`, integer part, `.`, fractional digits (`0` when the
value is integral).  Exact for values with a short decimal expansion
(the only ones this development evaluates; digits beyond the 17th are
truncated); Python's switch to scientific notation for very large or
very small magnitudes is not modelled. -/
def pyStrFinite (q : ℚ) : List Char :=
  (if q < 0 then ['-'] else []) ++
    natChars (q.num.natAbs / q.den) ++
    '.' :: (if q.num.natAbs % q.den = 0 then ['0']
            else fracDigitChars 17 (q.num.natAbs % q.den) q.den)

/-- Model of Python's default float-to-string conversion (`str`/`repr`). -/
def pyStr : PyFloat → List Char
  | .finite q => pyStrFinite q
  | .inf neg => if neg then "-inf".toList else "inf".toList
  | .nan => "nan".toList

/-- Python's `x >= 0` on a float: `False` for NaN, sign test otherwise. -/
def PyFloat.ge0 : PyFloat → Bool
  | .finite q => decide (0 ≤ q)
  | .inf neg => !neg
  | .nan => false

/-- Python's `abs` on a float (`abs(nan)` is `nan`). -/
def PyFloat.abs : PyFloat → PyFloat
  | .finite q => .finite |q|
  | .inf _ => .inf false
  | .nan => .nan

/-- `ComplexNumber.to_string` from the source:
`f"{real}{img_sign}{img_abs}i"` with `img_sign = "+" if img >= 0 else "-"`
and `img_abs = abs(img)`. -/
def ComplexNumber.to_string (z : ComplexNumber) : List Char :=
  pyStr z.real ++ (if z.img.ge0 then ['+'] else ['-']) ++ pyStr z.img.abs ++ ['i']

/-- The four operations of the calculator, the closed set of concrete
subclasses of `BaseOperation` that `ComplexOperationFactory` produces. -/
inductive Operation where
  | addition
  | subtraction
  | multiplication
  | division
deriving DecidableEq, Repr

/-- `BaseOperationFactory.create` as specialised by
`ComplexOperationFactory`: the string-keyed dispatch of the base class,
with the four `create_*` hooks returning the four concrete operations;
any other token raises `ValueError(f"Invalid operation: {operation}")`,
the spec's `UnknownOperationError` carrying the token. -/
def ComplexOperationFactory.create (operation : List Char) : Except CalcError Operation :=
  if operation = "+".toList then .ok .addition
  else if operation = "-".toList then .ok .subtraction
  else if operation = "*".toList then .ok .multiplication
  else if operation = "/".toList then .ok .division
  else .error (.unknownOperationError operation)

/-- The `ComplexNumber` class at the arithmetic level: components are
ideal real numbers (the exact-arithmetic idealization of finite Python
floats; IEEE-754 rounding is not modelled). -/
@[ext]
structure ComplexR where
  real : ℝ
  img : ℝ

/-- The zero complex number `ComplexNumber(0, 0)`. -/
def czero : ComplexR := { real := 0, img := 0 }

/-- The `magnitude` property of the source:
`math.sqrt(self.real ** 2 + self.img ** 2)`. -/
noncomputable def ComplexR.magnitude (z : ComplexR) : ℝ :=
  Real.sqrt (z.real ^ 2 + z.img ^ 2)

/-- `ComplexAddition.apply` from the source. -/
def ComplexAddition.apply (first second : ComplexR) : ComplexR :=
  { real := first.real + second.real, img := first.img + second.img }

/-- `ComplexSubtraction.apply` from the source. -/
def ComplexSubtraction.apply (first second : ComplexR) : ComplexR :=
  { real := first.real - second.real, img := first.img - second.img }

/-- `ComplexMultiplication.apply` from the source. -/
def ComplexMultiplication.apply (first second : ComplexR) : ComplexR :=
  { real := first.real * second.real - first.img * second.img,
    img := first.real * second.img + first.img * second.real }

/-- The local `denominator` of `ComplexDivision.apply`:
`second.magnitude ** 2`. -/
noncomputable def divDenominator (second : ComplexR) : ℝ :=
  second.magnitude ^ 2

/-- `ComplexDivision.apply` from the source: raises
`ZeroDivisionError` (the spec's `DivisionByZeroError`) when the
denominator is `0`, before computing either result component. -/
noncomputable def ComplexDivision.apply (first second : ComplexR) :
    Except CalcError ComplexR :=
  if divDenominator second = 0 then .error .divisionByZeroError
  else
    .ok { real := (first.real * second.real + first.img * second.img) / divDenominator second,
          img := (first.img * second.real - first.real * second.img) / divDenominator second }

/-- `splitOnComma` never returns the empty list of fields. -/
theorem splitOnComma_ne_nil (l : List Char) : splitOnComma l ≠ [] := by
  cases l with
  | nil => simp [splitOnComma]
  | cons c rest =>
    simp only [splitOnComma]
    split
    · simp
    · split <;> simp

/-- The number of fields produced by `splitOnComma` is one more than the
number of commas. -/
theorem splitOnComma_length (l : List Char) :
    (splitOnComma l).length = l.count ',' + 1 := by
  induction l with
  | nil => simp [splitOnComma]
  | cons c rest ih =>
    by_cases hc : c = ','
    · subst hc
      simp [splitOnComma, List.count_cons, ih]
    · rcases hsp : splitOnComma rest with _ | ⟨f, r⟩
      · exact absurd hsp (splitOnComma_ne_nil rest)
      · rw [hsp] at ih
        simp only [splitOnComma, if_neg hc, hsp, List.length_cons, List.count_cons]
        simp only [List.length_cons] at ih
        have hbe : (c == ',') = false := beq_eq_false_iff_ne.mpr hc
        rw [hbe]
        simp only [if_neg (by decide : ¬ false = true), Nat.add_zero]
        omega

/-- Splitting a comma-free string yields the single field holding the
whole string. -/
theorem splitOnComma_of_not_mem (l : List Char) (h : ',' ∉ l) :
    splitOnComma l = [l] := by
  induction l with
  | nil => rfl
  | cons c rest ih =>
    have hc : ¬ c = ',' := fun e => h (e ▸ List.mem_cons_self c rest)
    have hr : ',' ∉ rest := fun m => h (List.mem_cons_of_mem c m)
    simp only [splitOnComma, if_neg hc, ih hr]

/-- Every character emitted by `digChar` is a decimal digit. -/
theorem digChar_isDigit (d : ℕ) : (digChar d).isDigit = true := by
  have h : d % 10 < 10 := Nat.mod_lt _ (by norm_num)
  unfold digChar
  interval_cases hm : d % 10 <;> decide

/-- Every character emitted by `natCharsAux` is a decimal digit. -/
theorem natCharsAux_isDigit (fuel : ℕ) :
    ∀ n c, c ∈ natCharsAux fuel n → c.isDigit = true := by
  induction fuel with
  | zero => intro n c h; simp [natCharsAux] at h
  | succ k ih =>
    intro n c h
    unfold natCharsAux at h
    split at h
    · simp only [List.mem_singleton] at h
      exact h ▸ digChar_isDigit n
    · rcases List.mem_append.mp h with h1 | h2
      · exact ih _ _ h1
      · simp only [List.mem_singleton] at h2
        exact h2 ▸ digChar_isDigit n

/-- Every character emitted by `fracDigitChars` is a decimal digit. -/
theorem fracDigitChars_isDigit (fuel : ℕ) :
    ∀ r d c, c ∈ fracDigitChars fuel r d → c.isDigit = true := by
  induction fuel with
  | zero => intro r d c h; simp [fracDigitChars] at h
  | succ k ih =>
    intro r d c h
    unfold fracDigitChars at h
    split at h
    · simp at h
    · rcases List.mem_cons.mp h with h1 | h2
      · exact h1 ▸ digChar_isDigit _
      · exact ih _ _ _ h2

/-- The float-to-string conversion never emits a comma. -/
theorem pyStr_not_mem_comma (x : PyFloat) : ',' ∉ pyStr x := by
  cases x with
  | nan => decide
  | inf neg => cases neg <;> decide
  | finite q =>
    intro hmem
    simp only [pyStr, pyStrFinite, List.mem_append, List.mem_cons] at hmem
    rcases hmem with (h1 | h2) | h3 | h4
    · split at h1 <;> simp_all
    · have := natCharsAux_isDigit _ _ _ h2
      simp at this
    · exact absurd h3 (by decide)
    · split at h4
      · simp_all
      · have := fracDigitChars_isDigit _ _ _ _ h4
        simp at this

/-- The formatted rendering of a complex number never contains a comma. -/
theorem to_string_not_mem_comma (z : ComplexNumber) :
    ',' ∉ z.to_string := by
  intro hmem
  simp only [ComplexNumber.to_string, List.mem_append, List.mem_cons] at hmem
  rcases hmem with ((h1 | h2) | h3) | h4
  · exact pyStr_not_mem_comma _ h1
  · split at h2 <;> simp_all
  · exact pyStr_not_mem_comma _ h3
  · simp_all

/-- Parsing any comma-free string fails: the two-element unpacking of
`value.split(",")` fails on the single field. -/
theorem from_string_of_no_comma (s : List Char) (h : ',' ∉ s) :
    ComplexNumber.from_string s = .error .formatError := by
  unfold ComplexNumber.from_string
  rw [splitOnComma_of_not_mem s h]

/-- The division denominator `magnitude ** 2` equals the sum of the
squares of the components. -/
theorem divDenominator_eq (b : ComplexR) :
    divDenominator b = b.real ^ 2 + b.img ^ 2 :=
  Real.sq_sqrt (by positivity)

/-- The division denominator vanishes exactly on the zero complex
number. -/
theorem divDenominator_eq_zero_iff (b : ComplexR) :
    divDenominator b = 0 ↔ b = czero := by
  rw [divDenominator_eq]
  constructor
  · intro h
    have h1 : b.real = 0 := by nlinarith [sq_nonneg b.real, sq_nonneg b.img]
    have h2 : b.img = 0 := by nlinarith [sq_nonneg b.real, sq_nonneg b.img]
    ext
    · rw [h1]; rfl
    · rw [h2]; rfl
  · intro h
    rw [h]
    show (0:ℝ) ^ 2 + (0:ℝ) ^ 2 = 0
    ring

/-- C1 counterexample: formatting `ComplexNumber(1, 2)` yields
`"1.0+2.0i"`, and parsing that string fails with a `FormatError` instead
of returning the original value, because the formatted text contains no
comma. -/
theorem claim_C1_counterexample :
    ComplexNumber.from_string
        (ComplexNumber.to_string { real := .finite 1, img := .finite 2 }) =
      .error .formatError ∧
    ComplexNumber.from_string
        (ComplexNumber.to_string { real := .finite 1, img := .finite 2 }) ≠
      .ok { real := .finite 1, img := .finite 2 } := by
  decide

/-- C1 (amended): parsing the string produced by formatting a complex
number never succeeds — it always fails with a `FormatError`, because
`to_string` renders `"<real><sign><abs(imaginary)>i"`, which contains no
comma, while `from_string` requires exactly one comma. -/
theorem claim_C1_parse_format_fails (z : ComplexNumber) :
    ComplexNumber.from_string z.to_string = .error .formatError :=
  from_string_of_no_comma _ (to_string_not_mem_comma z)

/-- C2: `ComplexDivision.apply a b` fails with a `DivisionByZeroError`
exactly when the denominator `magnitude ** 2` is `0`, which happens
exactly when `b` is the zero complex number; the failing branch returns
before any result component is computed, and in particular division by
`ComplexNumber(0, 0)` fails for every dividend. -/
theorem claim_C2_div_zero_iff (a b : ComplexR) :
    (ComplexDivision.apply a b = .error .divisionByZeroError ↔ divDenominator b = 0) ∧
      (divDenominator b = 0 ↔ b = czero) ∧
      ComplexDivision.apply a czero = .error .divisionByZeroError := by
  refine ⟨?_, divDenominator_eq_zero_iff b, ?_⟩
  · unfold ComplexDivision.apply
    split_ifs with h <;> simp [h]
  · unfold ComplexDivision.apply
    rw [if_pos ((divDenominator_eq_zero_iff czero).mpr rfl)]

/-- C3: for a nonzero divisor `b`, `ComplexDivision.apply a b` returns
the componentwise quotient formula with denominator
`b.real ** 2 + b.img ** 2`. -/
theorem claim_C3_div_formula (a b : ComplexR) (hb : b ≠ czero) :
    ComplexDivision.apply a b =
      .ok { real := (a.real * b.real + a.img * b.img) / (b.real ^ 2 + b.img ^ 2),
            img := (a.img * b.real - a.real * b.img) / (b.real ^ 2 + b.img ^ 2) } := by
  have hd : divDenominator b ≠ 0 := fun h => hb ((divDenominator_eq_zero_iff b).mp h)
  unfold ComplexDivision.apply
  rw [if_neg hd, divDenominator_eq]

/-- C3 witness: dividing `1` by `i` through `ComplexDivision.apply`
instantiates the formula at a concrete nonzero divisor. -/
theorem claim_C3_div_formula_witness :
    ({ real := 0, img := 1 } : ComplexR) ≠ czero ∧
      ComplexDivision.apply { real := 1, img := 0 } { real := 0, img := 1 } =
        .ok { real := ((1:ℝ) * 0 + 0 * 1) / ((0:ℝ) ^ 2 + 1 ^ 2),
              img := ((0:ℝ) * 0 - 1 * 1) / ((0:ℝ) ^ 2 + 1 ^ 2) } := by
  have hne : ({ real := 0, img := 1 } : ComplexR) ≠ czero := by
    intro h
    have h1 := congrArg ComplexR.img h
    simp only [czero] at h1
    exact one_ne_zero h1
  exact ⟨hne, claim_C3_div_formula { real := 1, img := 0 } { real := 0, img := 1 } hne⟩

/-- C6: `magnitude` is the square root of the sum of squared components,
total on all (finite, idealized) inputs, and vanishes exactly when both
components vanish. -/
theorem claim_C6_magnitude (z : ComplexR) :
    z.magnitude = Real.sqrt (z.real ^ 2 + z.img ^ 2) ∧
      (z.magnitude = 0 ↔ z.real = 0 ∧ z.img = 0) := by
  refine ⟨rfl, ?_, ?_⟩
  · intro h
    have h2 : z.real ^ 2 + z.img ^ 2 ≤ 0 := Real.sqrt_eq_zero'.mp h
    constructor <;> nlinarith [sq_nonneg z.real, sq_nonneg z.img]
  · rintro ⟨h1, h2⟩
    simp [ComplexR.magnitude, h1, h2]

/-- C9: `ComplexNumber(1, 0)` is a right identity for
`ComplexMultiplication.apply`. -/
theorem claim_C9_mul_one (z : ComplexR) :
    ComplexMultiplication.apply z { real := 1, img := 0 } = z := by
  unfold ComplexMultiplication.apply
  ext <;> simp

/-- C5: the factory resolves exactly the four one-character tokens to
their operations and fails with an `UnknownOperationError` carrying the
token on every other input. -/
theorem claim_C5_selector (t : List Char) :
    (ComplexOperationFactory.create t = .ok .addition ↔ t = "+".toList) ∧
      (ComplexOperationFactory.create t = .ok .subtraction ↔ t = "-".toList) ∧
      (ComplexOperationFactory.create t = .ok .multiplication ↔ t = "*".toList) ∧
      (ComplexOperationFactory.create t = .ok .division ↔ t = "/".toList) ∧
      (ComplexOperationFactory.create t = .error (.unknownOperationError t) ↔
        ¬(t = "+".toList ∨ t = "-".toList ∨ t = "*".toList ∨ t = "/".toList)) := by
  by_cases h1 : t = "+".toList
  · subst h1; decide
  by_cases h2 : t = "-".toList
  · subst h2; decide
  by_cases h3 : t = "*".toList
  · subst h3; decide
  by_cases h4 : t = "/".toList
  · subst h4; decide
  have hc : ComplexOperationFactory.create t = .error (.unknownOperationError t) := by
    unfold ComplexOperationFactory.create
    rw [if_neg h1, if_neg h2, if_neg h3, if_neg h4]
  replace h1 : ¬t = ['+'] := h1
  replace h2 : ¬t = ['-'] := h2
  replace h3 : ¬t = ['*'] := h3
  replace h4 : ¬t = ['/'] := h4
  refine ⟨?_, ?_, ?_, ?_, ?_⟩ <;> simp [hc, h1, h2, h3, h4]

/-- C7: `to_string` renders `"<real><sign><abs(imaginary)>i"`, where the
sign is `+` exactly when the imaginary part compares `>= 0` the way
Python floats do (non-negative finite values — zero included — and
positive infinity; NaN compares false). -/
theorem claim_C7_format_shape (z : ComplexNumber) :
    z.to_string =
        pyStr z.real ++ (if z.img.ge0 then ['+'] else ['-']) ++ pyStr z.img.abs ++ ['i'] ∧
      (z.img.ge0 = true ↔ (∃ q, z.img = .finite q ∧ 0 ≤ q) ∨ z.img = .inf false) ∧
      PyFloat.ge0 (.finite 0) = true := by
  refine ⟨rfl, ?_, by decide⟩
  cases hz : z.img with
  | finite q => simp [PyFloat.ge0]
  | inf neg => cases neg <;> simp [PyFloat.ge0]
  | nan => simp [PyFloat.ge0]

/-- C8: parsing well-formed two-field input succeeds, tolerating
whitespace around each field: `"1,2"` gives `ComplexNumber(1, 2)` and
`" 1 , -2.5 "` gives `ComplexNumber(1, -2.5)`. -/
theorem claim_C8_parse_examples :
    ComplexNumber.from_string "1,2".toList =
        .ok { real := .finite 1, img := .finite 2 } ∧
      ComplexNumber.from_string " 1 , -2.5 ".toList =
        .ok { real := .finite 1, img := .finite (-2.5) } := by
  have h : ComplexNumber.from_string " 1 , -2.5 ".toList =
      .ok { real := .finite 1, img := .finite (mkRat (-5) 2) } := by decide
  have hq : (mkRat (-5) 2 : ℚ) = (-2.5 : ℚ) := by norm_num [Rat.mkRat_eq_div]
  rw [hq] at h
  exact ⟨by decide, h⟩

/-- C10: non-finite tokens pass `from_string`, so a NaN imaginary part is
reachable from text; formatting it renders sign `-` (since `nan >= 0` is
false) followed by `nani`, while an imaginary part written `-0.0`
(value zero) renders with sign `+`. -/
theorem claim_C10_nonfinite :
    ComplexNumber.from_string "0,nan".toList =
        .ok { real := .finite 0, img := .nan } ∧
      ComplexNumber.to_string { real := .finite 0, img := .nan } = "0.0-nani".toList ∧
      ComplexNumber.from_string "0,-0.0".toList =
        .ok { real := .finite 0, img := .finite 0 } ∧
      ComplexNumber.to_string { real := .finite 0, img := .finite 0 } = "0.0+0.0i".toList := by
  refine ⟨by decide, by decide, by decide, by decide⟩

/-- C4 counterexample: `parse("0,nan")` is not rejected — the field
`nan` parses to a non-finite float and `from_string` accepts it,
contradicting the claim that only finite field values pass. -/
theorem claim_C4_counterexample :
    ComplexNumber.from_string "0,nan".toList ≠ .error .formatError ∧
      ComplexNumber.from_string "0,nan".toList =
        .ok { real := .finite 0, img := .nan } := by
  decide

/-- C4 (amended): `from_string` fails with a `FormatError` exactly when
the input does not split at commas into exactly two fields (equivalently,
does not contain exactly one comma) or some field fails to parse as a
float — non-finite values such as `nan` and `inf` are accepted; in
particular `"1,2,3"`, `"abc"` and `"1"` are all rejected. -/
theorem claim_C4_parse_failure_iff (s : List Char) :
    (ComplexNumber.from_string s = .error .formatError ↔
        ¬ ∃ a b, splitOnComma s = [a, b] ∧
          (pyFloat? (stripChars a)).isSome = true ∧
          (pyFloat? (stripChars b)).isSome = true) ∧
      ((∃ a b, splitOnComma s = [a, b]) ↔ s.count ',' = 1) ∧
      ComplexNumber.from_string "1,2,3".toList = .error .formatError ∧
      ComplexNumber.from_string "abc".toList = .error .formatError ∧
      ComplexNumber.from_string "1".toList = .error .formatError := by
  refine ⟨?_, ?_, by decide, by decide, by decide⟩
  · unfold ComplexNumber.from_string
    rcases hsp : splitOnComma s with _ | ⟨a, _ | ⟨b, _ | ⟨c, t⟩⟩⟩
    · simp
    · simp
    · rcases hra : pyFloat? (stripChars a) with _ | ra <;>
        rcases hrb : pyFloat? (stripChars b) with _ | rb <;>
          simp [hra, hrb]
    · simp
  · have hlen := splitOnComma_length s
    constructor
    · rintro ⟨a, b, hab⟩
      rw [hab] at hlen
      simp only [List.length_cons, List.length_nil] at hlen
      omega
    · intro h1
      rw [h1] at hlen
      have h2 : (splitOnComma s).length = 2 := by omega
      exact List.length_eq_two.mp h2
